import Mathlib

/-!
Verification of the Tontine backend (Express + Prisma) cycle/payment and
membership-authorization logic, as a shallow embedding in Lean.

The embedding follows the active server in `backend/src` (the second document
of `src/unnamed/part_003`, which registers every route used by the mobile
client) together with the Prisma schema in `backend/prisma/schema.prisma`:

* Rows of the five tables (`User`, `Group`, `Membership`, `Cycle`, `Payment`)
  become structures; `Float` columns become `Rat` (no float arithmetic occurs
  in the handlers: values are only parsed, stored and compared), `Int` id
  columns become `Int`, timestamps become `Int`, nullable columns become
  `Option`.
* The database becomes a `DBState` of row lists plus the autoincrement
  counters of the four tables the handlers insert into.
* Each HTTP handler becomes a function from a state and its inputs to a
  `Res` (HTTP status plus success body) and a successor state.  A Prisma
  `update`/`create` that throws (missing row, unique-key or foreign-key
  violation) is caught by the handler's `try/catch` and surfaces as a 500
  with the state unchanged, exactly as in the source.
* JavaScript truthiness tests that the handlers perform on request fields
  (`contribution ? … : null`, `status || 'active'`, `if (recipientUserId)`,
  `theGroup?.contribution || 100`) are modelled faithfully: a number is falsy
  iff it is `0`, a string is falsy iff it is empty, `undefined`/`null` are
  falsy.  Request bodies are modelled as already-parsed JSON with numeric
  fields numeric (`parseFloat`/`parseInt`/`Number` are then the identity);
  JSON `null` body fields and non-numeric strings in numeric positions are
  outside the model.
-/

namespace Tontine

/-- Row of the `User` table (`schema.prisma`).  `createdAt`/`updatedAt` are
bookkeeping columns never read by the handlers and are omitted. -/
structure User where
  id : Int
  email : String
  password : String
  name : Option String
  phone : Option String
  pushToken : Option String
deriving Repr, DecidableEq

/-- Row of the `Group` table (`schema.prisma`). -/
structure Group where
  id : Int
  name : String
  description : Option String
  contribution : Option Rat
  frequency : Option String
  maxMembers : Option Int
deriving Repr, DecidableEq

/-- Row of the `Membership` table (`schema.prisma`); `role` defaults to
`"member"` and the table is unique on `(userId, groupId)`. -/
structure Membership where
  id : Int
  userId : Int
  groupId : Int
  role : String
deriving Repr, DecidableEq

/-- Row of the `Cycle` table (`schema.prisma`). -/
structure Cycle where
  id : Int
  groupId : Int
  cycleIndex : Int
  startDate : Option Int
  endDate : Option Int
  recipientUserId : Option Int
  status : String
deriving Repr, DecidableEq

/-- Row of the `Payment` table (`schema.prisma`); `paid` defaults to
`false`, `paidAt` is nullable. -/
structure Payment where
  id : Int
  cycleId : Int
  userId : Int
  amount : Rat
  paid : Bool
  paidAt : Option Int
deriving Repr, DecidableEq

/-- The relational store: the five tables plus the autoincrement counters of
the tables the modelled handlers insert into. -/
structure DBState where
  users : List User
  groups : List Group
  memberships : List Membership
  cycles : List Cycle
  payments : List Payment
  nextUserId : Int
  nextMembershipId : Int
  nextCycleId : Int
  nextPaymentId : Int
deriving Repr, DecidableEq

/-- HTTP outcome of a handler: a success status with a JSON body, or an
error status (the JSON error message is not modelled). -/
inductive Res (α : Type) where
  | ok (code : Nat) (body : α)
  | err (code : Nat)
deriving Repr, DecidableEq

/-- `prisma.membership.findUnique({ where: { userId_groupId: { userId, groupId } } })`:
first row matching the compound key (at most one exists under the schema's
`@@unique([userId, groupId])`). -/
def findMembership (st : DBState) (userId groupId : Int) : Option Membership :=
  st.memberships.find? (fun m => m.userId == userId && m.groupId == groupId)

/-- The admin test every mutating group/cycle handler performs:
`membership && membership.role === 'admin'` for the caller's row in the
group. -/
def isAdmin (st : DBState) (userId groupId : Int) : Bool :=
  match findMembership st userId groupId with
  | some m => m.role == "admin"
  | none => false

/-- Request body of `POST /groups/:groupId/cycles`. -/
structure CycleCreateBody where
  cycleIndex : Int
  startDate : Option Int
  endDate : Option Int
  recipientUserId : Option Int
  status : Option String
deriving Repr, DecidableEq

/-- `prisma.payment.createMany` of the fan-out step: one `Payment` per
membership, ids assigned by the sequence, `paid` and `paidAt` taking their
schema defaults (`false`, `NULL`). -/
def fanOut (nextId cycleId : Int) (amount : Rat) : List Membership → List Payment
  | [] => []
  | m :: rest =>
      { id := nextId, cycleId := cycleId, userId := m.userId,
        amount := amount, paid := false, paidAt := none }
        :: fanOut (nextId + 1) cycleId amount rest

/-- The `prisma.cycle.create` data of step 2 of the handler: supplied index
and dates, `recipientUserId ? Number(recipientUserId) : null`, and
`status || 'active'`. -/
def mkNewCycle (st : DBState) (groupId : Int) (b : CycleCreateBody) : Cycle :=
  { id := st.nextCycleId
    groupId := groupId
    cycleIndex := b.cycleIndex
    startDate := b.startDate
    endDate := b.endDate
    recipientUserId :=
      match b.recipientUserId with
      | some r => if r == 0 then none else some r
      | none => none
    status :=
      match b.status with
      | some s => if s == "" then "active" else s
      | none => "active" }

/-- Step 4 of the handler: `theGroup?.contribution || 100` — the stored
contribution when the group row was found and the value is truthy
(non-zero), the hard-coded 100 otherwise. -/
def fanOutAmount (theGroup : Option Group) : Rat :=
  match theGroup with
  | none => 100
  | some g =>
    match g.contribution with
    | none => 100
    | some c => if c == 0 then 100 else c

/-- Handler of `POST /groups/:groupId/cycles` (active server): admin check,
cycle insert, membership snapshot, `theGroup?.contribution || 100`, payment
fan-out. -/
def createCycle (st : DBState) (callerId groupId : Int) (b : CycleCreateBody) :
    Res Cycle × DBState :=
  match findMembership st callerId groupId with
  | none => (.err 403, st)
  | some m =>
    if m.role != "admin" then (.err 403, st)
    else
      let newCycle := mkNewCycle st groupId b
      let members := st.memberships.filter (fun mm => mm.groupId == groupId)
      let groupContribution := fanOutAmount (st.groups.find? (fun g => g.id == groupId))
      (.ok 201 newCycle,
        { st with
            cycles := st.cycles ++ [newCycle]
            payments := st.payments ++ fanOut st.nextPaymentId newCycle.id groupContribution members
            nextCycleId := st.nextCycleId + 1
            nextPaymentId := st.nextPaymentId + members.length })

/-- Request body of `PUT /groups/:groupId` (and the group fields of
`POST /groups`): `none` models an absent (`undefined`) field. -/
structure GroupUpdateBody where
  name : Option String
  description : Option String
  contribution : Option Rat
  frequency : Option String
  maxMembers : Option Int
deriving Repr, DecidableEq

/-- The `data` object of `prisma.group.update` in `PUT /groups/:groupId`.
An `undefined` value makes Prisma skip the column, so omitted `name`,
`description` and `frequency` are retained; but `contribution` and
`maxMembers` are computed as `contribution ? parseFloat(contribution) : null`
(resp. `parseInt`), which is never `undefined`: when the body omits the field
or sends a falsy `0`, the column is overwritten with `NULL`. -/
def applyGroupUpdate (g : Group) (b : GroupUpdateBody) : Group :=
  { g with
      name := match b.name with | some s => s | none => g.name
      description := match b.description with | some s => some s | none => g.description
      contribution :=
        match b.contribution with
        | some v => if v == 0 then none else some v
        | none => none
      frequency := match b.frequency with | some s => some s | none => g.frequency
      maxMembers :=
        match b.maxMembers with
        | some v => if v == 0 then none else some v
        | none => none }

/-- Handler of `PUT /groups/:groupId` (active server): admin check, then an
unconditional `prisma.group.update`; an absent group row makes the update
throw, caught as a 500. -/
def updateGroup (st : DBState) (callerId groupId : Int) (b : GroupUpdateBody) :
    Res Group × DBState :=
  match findMembership st callerId groupId with
  | none => (.err 403, st)
  | some m =>
    if m.role != "admin" then (.err 403, st)
    else
      match st.groups.find? (fun g => g.id == groupId) with
      | none => (.err 500, st)
      | some g =>
        (.ok 200 (applyGroupUpdate g b),
          { st with
              groups := st.groups.map
                (fun x => if x.id == groupId then applyGroupUpdate x b else x) })

/-- Request body of `POST /memberships`. -/
structure MembershipCreateBody where
  userId : Int
  groupId : Int
  role : Option String
deriving Repr, DecidableEq

/-- Handler of `POST /memberships` (active server).  The route is registered
WITHOUT `authMiddleware` and its body never reads `req.user`, so no caller
identity exists to check.  `prisma.membership.create` succeeds when the
`userId`/`groupId` foreign keys resolve and the `@@unique([userId, groupId])`
key is free; a constraint violation throws and is caught as a 500.  The role
is `role || 'member'`. -/
def addMembership (st : DBState) (b : MembershipCreateBody) :
    Res Membership × DBState :=
  if st.users.any (fun u => u.id == b.userId)
      && st.groups.any (fun g => g.id == b.groupId)
      && !(st.memberships.any (fun m => m.userId == b.userId && m.groupId == b.groupId)) then
    let newM : Membership :=
      { id := st.nextMembershipId
        userId := b.userId
        groupId := b.groupId
        role :=
          match b.role with
          | some r => if r == "" then "member" else r
          | none => "member" }
    (.ok 201 newM,
      { st with
          memberships := st.memberships ++ [newM]
          nextMembershipId := st.nextMembershipId + 1 })
  else (.err 500, st)

/-- The route `app.post('/memberships', handler)`: no `authMiddleware` is in
the chain, so the request's bearer token (valid, invalid or absent, modelled
as `auth`) is never examined and the handler runs for every caller. -/
def postMemberships (st : DBState) (auth : Option Int) (b : MembershipCreateBody) :
    Res Membership × DBState :=
  addMembership st b

/-- The permission test of `DELETE /memberships/:membershipId`: the caller
is the membership's own user (`isOwnMembership`), or holds an admin
membership in that group. -/
def removalAllowed (st : DBState) (callerId : Int) (m : Membership) : Bool :=
  if m.userId == callerId then true
  else
    match findMembership st callerId m.groupId with
    | some um => um.role == "admin"
    | none => false

/-- The `where` clause of the handler's `prisma.payment.deleteMany`: the
payment belongs to the removed membership's user and its cycle belongs to
the membership's group. -/
def paymentOfUserInGroup (st : DBState) (m : Membership) (p : Payment) : Bool :=
  p.userId == m.userId &&
    (match st.cycles.find? (fun c => c.id == p.cycleId) with
     | some c => c.groupId == m.groupId
     | none => false)

/-- Handler of `DELETE /memberships/:membershipId` (active server): 404 when
the row is absent; allowed for the membership's own user or a group admin;
on success `prisma.payment.deleteMany` removes the user's payments whose
cycle belongs to the group, then the membership row is deleted. -/
def removeMembership (st : DBState) (callerId membershipId : Int) :
    Res String × DBState :=
  match st.memberships.find? (fun m => m.id == membershipId) with
  | none => (.err 404, st)
  | some m =>
    if removalAllowed st callerId m then
      (.ok 200 "Member removed successfully",
        { st with
            payments := st.payments.filter (fun p => !(paymentOfUserInGroup st m p))
            memberships := st.memberships.filter (fun mm => mm.id != membershipId) })
    else (.err 403, st)

/-- Request body of `PUT /cycles/:cycleId`. -/
structure CycleUpdateBody where
  recipientUserId : Option Int
  status : Option String
deriving Repr, DecidableEq

/-- The `data` object of `prisma.cycle.update` in `PUT /cycles/:cycleId`:
`recipientUserId ? parseInt(recipientUserId.toString(), 10) : null` writes
the supplied id when truthy and `NULL` otherwise (also when the field is
absent or `0`); `status: status || undefined` writes a truthy status verbatim
and skips the column otherwise. -/
def applyCycleUpdate (c : Cycle) (b : CycleUpdateBody) : Cycle :=
  { c with
      recipientUserId :=
        match b.recipientUserId with
        | some r => if r == 0 then none else some r
        | none => none
      status :=
        match b.status with
        | some s => if s == "" then c.status else s
        | none => c.status }

/-- The recipient validation of `PUT /cycles/:cycleId`: only a truthy
(non-zero) supplied `recipientUserId` is checked against the memberships of
the cycle's group. -/
def invalidRecipient (st : DBState) (c : Cycle) (b : CycleUpdateBody) : Bool :=
  match b.recipientUserId with
  | some r => if r == 0 then false else (findMembership st r c.groupId).isNone
  | none => false

/-- Handler of `PUT /cycles/:cycleId` (active server): 404 when the cycle is
absent, admin check on the cycle's group, recipient validation, then the
update of `applyCycleUpdate`. -/
def updateCycle (st : DBState) (callerId cycleId : Int) (b : CycleUpdateBody) :
    Res Cycle × DBState :=
  match st.cycles.find? (fun c => c.id == cycleId) with
  | none => (.err 404, st)
  | some c =>
    match findMembership st callerId c.groupId with
    | none => (.err 403, st)
    | some m =>
      if m.role != "admin" then (.err 403, st)
      else if invalidRecipient st c b then (.err 400, st)
      else
        (.ok 200 (applyCycleUpdate c b),
          { st with
              cycles := st.cycles.map
                (fun x => if x.id == cycleId then applyCycleUpdate x b else x) })

/-- Handler of `PUT /payments/:paymentId/pay` (active server): the caller's
identity is attached by `authMiddleware` but never read (the ownership check
is commented out); `prisma.payment.update` unconditionally sets
`paid: true, paidAt: new Date()`, throwing (caught as 500) only when the row
is absent. -/
def markPaid (st : DBState) (callerId paymentId : Int) (now : Int) :
    Res Payment × DBState :=
  match st.payments.find? (fun p => p.id == paymentId) with
  | none => (.err 500, st)
  | some p =>
    (.ok 200 { p with paid := true, paidAt := some now },
      { st with
          payments := st.payments.map
            (fun q => if q.id == paymentId then { q with paid := true, paidAt := some now } else q) })

/-- Handler of `GET /cycles/:cycleId/payments` (active server): 404 when the
cycle is absent, membership check on the cycle's group, then all payments of
the cycle (the nested user/cycle projections are not modelled).  The read
does not change the state. -/
def listForCycle (st : DBState) (callerId cycleId : Int) : Res (List Payment) :=
  match st.cycles.find? (fun c => c.id == cycleId) with
  | none => .err 404
  | some c =>
    match findMembership st callerId c.groupId with
    | none => .err 403
    | some _ => .ok 200 (st.payments.filter (fun p => p.cycleId == cycleId))

/-- Request body of `POST /users`. -/
structure UserCreateBody where
  email : String
  password : String
  name : Option String
  phone : Option String
deriving Repr, DecidableEq

/-- The response body of `POST /users`: the created row after
`const { password: _, ...userWithoutPassword } = user` — every column except
`password`. -/
structure UserPublic where
  id : Int
  email : String
  name : Option String
  phone : Option String
  pushToken : Option String
deriving Repr, DecidableEq

/-- JavaScript `email.toLowerCase()` on the ASCII emails of this API:
lowercase every character. -/
def jsToLower (s : String) : String := String.mk (s.data.map Char.toLower)

/-- Handler of `POST /users` (active server, no auth): lowercases the email,
stores the supplied password verbatim (the handler's own comment: storing
plain text, testing only), and answers with the row minus the password
column.  A duplicate email violates the unique key and surfaces as 500. -/
def createUser (st : DBState) (b : UserCreateBody) : Res UserPublic × DBState :=
  let normalizedEmail := jsToLower b.email
  if st.users.any (fun u => u.email == normalizedEmail) then (.err 500, st)
  else
    let u : User :=
      { id := st.nextUserId
        email := normalizedEmail
        password := b.password
        name := b.name
        phone := b.phone
        pushToken := none }
    (.ok 201 { id := u.id, email := u.email, name := u.name, phone := u.phone, pushToken := u.pushToken },
      { st with users := st.users ++ [u], nextUserId := st.nextUserId + 1 })

/-! ### Database well-formedness facts used as hypotheses

Postgres enforces these through the schema's keys; the row lists of a
reachable store satisfy them. -/

/-- The compound unique key `@@unique([userId, groupId])` of the
`Membership` table. -/
def MembKeyUnique (st : DBState) : Prop :=
  (st.memberships.map (fun m => (m.userId, m.groupId))).Nodup

instance (st : DBState) : Decidable (MembKeyUnique st) := by
  unfold MembKeyUnique; exact List.nodupDecidable _

/-- The primary key of the `Cycle` table. -/
def CycleIdsUnique (st : DBState) : Prop :=
  (st.cycles.map Cycle.id).Nodup

instance (st : DBState) : Decidable (CycleIdsUnique st) := by
  unfold CycleIdsUnique; exact List.nodupDecidable _

/-! ### Lookup lemmas -/

theorem memb_find?_eq (l : List Membership)
    (h : (l.map (fun m => (m.userId, m.groupId))).Nodup)
    (m : Membership) (hm : m ∈ l) :
    l.find? (fun x => x.userId == m.userId && x.groupId == m.groupId) = some m := by
  induction l with
  | nil => cases hm
  | cons a t ih =>
    simp only [List.map_cons, List.nodup_cons] at h
    rcases List.mem_cons.mp hm with rfl | hmt
    · exact List.find?_cons_of_pos t (by simp)
    · have hkey : ¬ (a.userId = m.userId ∧ a.groupId = m.groupId) := by
        intro ⟨h1, h2⟩
        exact h.1 (by
          have : (fun x => (x.userId, x.groupId)) m ∈ t.map (fun x => (x.userId, x.groupId)) :=
            List.mem_map_of_mem _ hmt
          simpa [h1, h2] using this)
      rw [List.find?_cons_of_neg t (by simpa using hkey)]
      exact ih h.2 hmt

theorem cycle_find?_eq (l : List Cycle) (h : (l.map Cycle.id).Nodup)
    (c : Cycle) (hc : c ∈ l) :
    l.find? (fun x => x.id == c.id) = some c := by
  induction l with
  | nil => cases hc
  | cons a t ih =>
    simp only [List.map_cons, List.nodup_cons] at h
    rcases List.mem_cons.mp hc with rfl | hct
    · exact List.find?_cons_of_pos t (by simp)
    · have hkey : a.id ≠ c.id := by
        intro he
        exact h.1 (by
          have : Cycle.id c ∈ t.map Cycle.id := List.mem_map_of_mem _ hct
          simpa [he] using this)
      rw [List.find?_cons_of_neg t (by simpa using hkey)]
      exact ih h.2 hct

theorem findMembership_some (st : DBState) (u g : Int) (m : Membership)
    (h : findMembership st u g = some m) :
    m ∈ st.memberships ∧ m.userId = u ∧ m.groupId = g := by
  unfold findMembership at h
  have h1 := List.mem_of_find?_eq_some h
  have h2 := List.find?_some h
  simp only [Bool.and_eq_true, beq_iff_eq] at h2
  exact ⟨h1, h2.1, h2.2⟩

theorem findMembership_of_mem (st : DBState) (hu : MembKeyUnique st)
    (m : Membership) (hm : m ∈ st.memberships) :
    findMembership st m.userId m.groupId = some m :=
  memb_find?_eq st.memberships hu m hm

/-- The caller-has-an-admin-membership fact, in the spec's language and as
the handlers compute it, are equivalent under the membership unique key. -/
theorem isAdmin_iff (st : DBState) (hu : MembKeyUnique st) (u g : Int) :
    isAdmin st u g = true ↔
      ∃ m ∈ st.memberships, m.userId = u ∧ m.groupId = g ∧ m.role = "admin" := by
  unfold isAdmin
  constructor
  · intro h
    cases hfm : findMembership st u g with
    | none => rw [hfm] at h; cases h
    | some m =>
      rw [hfm] at h
      obtain ⟨hmem, hmu, hmg⟩ := findMembership_some st u g m hfm
      exact ⟨m, hmem, hmu, hmg, beq_iff_eq.mp h⟩
  · rintro ⟨m, hmem, hmu, hmg, hrole⟩
    have := findMembership_of_mem st hu m hmem
    rw [hmu, hmg] at this
    rw [this]
    exact beq_iff_eq.mpr hrole

theorem isAdmin_eq_true (st : DBState) (u g : Int) (h : isAdmin st u g = true) :
    ∃ m, findMembership st u g = some m ∧ m.role = "admin" := by
  unfold isAdmin at h
  cases hfm : findMembership st u g with
  | none => rw [hfm] at h; cases h
  | some m => rw [hfm] at h; exact ⟨m, rfl, beq_iff_eq.mp h⟩

/-! ### Fan-out lemmas -/

theorem fanOut_length (n cid : Int) (amt : Rat) (ms : List Membership) :
    (fanOut n cid amt ms).length = ms.length := by
  induction ms generalizing n with
  | nil => rfl
  | cons m rest ih => simp [fanOut, ih]

theorem fanOut_map_userId (n cid : Int) (amt : Rat) (ms : List Membership) :
    (fanOut n cid amt ms).map Payment.userId = ms.map Membership.userId := by
  induction ms generalizing n with
  | nil => rfl
  | cons m rest ih => simp [fanOut, ih]

theorem fanOut_mem (n cid : Int) (amt : Rat) (ms : List Membership) :
    ∀ p ∈ fanOut n cid amt ms,
      p.paid = false ∧ p.paidAt = none ∧ p.amount = amt ∧ p.cycleId = cid := by
  induction ms generalizing n with
  | nil => intro p hp; cases hp
  | cons m rest ih =>
    intro p hp
    rcases List.mem_cons.mp hp with rfl | hp'
    · exact ⟨rfl, rfl, rfl, rfl⟩
    · exact ih (n + 1) p hp'

/-! ### Sample stores for witnesses and counterexamples -/

/-- A small reachable store: group 1 has contribution 50, an admin (user 1)
and two members (users 2 and 5); its one cycle is completed with recipient
user 5; group 2 is empty. -/
def sampleState : DBState where
  users :=
    [⟨1, "a@x.c", "pw1", none, none, none⟩,
     ⟨2, "b@x.c", "pw2", none, none, none⟩,
     ⟨5, "e@x.c", "pw5", none, none, none⟩]
  groups :=
    [⟨1, "g1", none, some 50, some "monthly", some 10⟩,
     ⟨2, "g2", none, none, none, none⟩]
  memberships := [⟨1, 1, 1, "admin"⟩, ⟨2, 2, 1, "member"⟩, ⟨3, 5, 1, "member"⟩]
  cycles := [⟨1, 1, 1, none, none, some 5, "completed"⟩]
  payments := [⟨1, 1, 1, 50, false, none⟩, ⟨2, 1, 2, 50, true, some 10⟩]
  nextUserId := 6
  nextMembershipId := 4
  nextCycleId := 2
  nextPaymentId := 3

/-- A store whose one group has `contribution = 0` — a value the schema's
nullable `Float` column admits. -/
def zeroContribState : DBState where
  users := [⟨1, "a@x.c", "pw1", none, none, none⟩]
  groups := [⟨1, "g1", none, some 0, none, none⟩]
  memberships := [⟨1, 1, 1, "admin"⟩]
  cycles := []
  payments := []
  nextUserId := 2
  nextMembershipId := 2
  nextCycleId := 1
  nextPaymentId := 1

/-! ### Claim theorems -/

/-- C6: for every payment row and every authenticated caller,
`PUT /payments/:paymentId/pay` unconditionally sets `paid = true` and
`paidAt` to the current time; the outcome is identical for every caller (no
ownership or admin check), other payment rows are untouched, and on an
already-paid payment (the hypothesis places no constraint on `p.paid`) the
`paid` flag stays `true` while `paidAt` is overwritten with the new
timestamp. -/
theorem markPaid_unconditional (st : DBState) (caller caller2 pid now : Int) (p : Payment)
    (hp : st.payments.find? (fun q => q.id == pid) = some p) :
    (markPaid st caller pid now).1 = Res.ok 200 { p with paid := true, paidAt := some now } ∧
    markPaid st caller2 pid now = markPaid st caller pid now ∧
    { p with paid := true, paidAt := some now } ∈ (markPaid st caller pid now).2.payments ∧
    (∀ q ∈ st.payments, q.id ≠ p.id → q ∈ (markPaid st caller pid now).2.payments) ∧
    (markPaid st caller pid now).2.payments.length = st.payments.length := by
  have hpid : (p.id == pid) = true := by have := List.find?_some hp; exact this
  have hpe : p.id = pid := beq_iff_eq.mp hpid
  have hpmem : p ∈ st.payments := List.mem_of_find?_eq_some hp
  refine ⟨by simp [markPaid, hp], rfl, ?_, ?_, by simp [markPaid, hp]⟩
  · have h := List.mem_map_of_mem
      (fun q => if q.id == pid then { q with paid := true, paidAt := some now } else q) hpmem
    simp only [hpid, if_true] at h
    simpa [markPaid, hp] using h
  · intro q hq hqid
    have hqne : (q.id == pid) = false :=
      beq_eq_false_iff_ne.mpr (fun h => hqid (h.trans hpe.symm))
    have h := List.mem_map_of_mem
      (fun q => if q.id == pid then { q with paid := true, paidAt := some now } else q) hq
    simp only [hqne, if_false] at h
    simpa [markPaid, hp] using h

/-- C6 witness: payment 2 of the sample store is already paid (`paidAt = 10`);
caller 2 (its owner) and caller 3 (a stranger to the group) both succeed, and
`paidAt` is overwritten to the new timestamp 99. -/
theorem markPaid_unconditional_witness :
    (sampleState.payments.find? (fun q => q.id == 2) = some ⟨2, 1, 2, 50, true, some 10⟩) ∧
    ((markPaid sampleState 3 2 99).1 = Res.ok 200 ⟨2, 1, 2, 50, true, some 99⟩ ∧
     markPaid sampleState 7 2 99 = markPaid sampleState 3 2 99 ∧
     (⟨2, 1, 2, 50, true, some 99⟩ : Payment) ∈ (markPaid sampleState 3 2 99).2.payments ∧
     (∀ q ∈ sampleState.payments, q.id ≠ (2 : Int) → q ∈ (markPaid sampleState 3 2 99).2.payments) ∧
     (markPaid sampleState 3 2 99).2.payments.length = sampleState.payments.length) :=
  ⟨by decide, markPaid_unconditional sampleState 3 7 2 99 ⟨2, 1, 2, 50, true, some 10⟩ (by decide)⟩

/-- C5 counterexample: the sample store already holds a membership of user 1
in group 1, so `POST /memberships` with the same `(userId, groupId)` violates
the `@@unique([userId, groupId])` key: the call answers 500 and creates no
row — hence the claim's "for every userId, groupId and role value, the
operation creates the Membership row" fails at this input. -/
theorem membershipAdd_counterexample :
    (⟨1, 1, 1, "admin"⟩ : Membership) ∈ sampleState.memberships ∧
    (postMemberships sampleState (some 1) ⟨1, 1, some "member"⟩).1 = Res.err 500 ∧
    (postMemberships sampleState (some 1) ⟨1, 1, some "member"⟩).2 = sampleState :=
  ⟨by decide, rfl, rfl⟩

/-- C5 amended: `POST /memberships` is registered without `authMiddleware`
and never reads a caller identity: the outcome is identical for every
presented bearer token (including none) and is never an authentication or
authorization error (401/403); whenever the `userId`/`groupId` foreign keys
resolve and no membership with that `(userId, groupId)` exists, the row is
created with role `role || 'member'`. -/
theorem membershipAdd_no_auth (st : DBState) (auth auth2 : Option Int) (b : MembershipCreateBody)
    (huser : ∃ u ∈ st.users, u.id = b.userId)
    (hgroup : ∃ g ∈ st.groups, g.id = b.groupId)
    (hfree : ¬ ∃ m ∈ st.memberships, m.userId = b.userId ∧ m.groupId = b.groupId) :
    (∃ newM, (postMemberships st auth b).1 = Res.ok 201 newM ∧
       newM ∈ (postMemberships st auth b).2.memberships ∧
       newM.userId = b.userId ∧ newM.groupId = b.groupId ∧
       newM.role = (match b.role with
         | some r => if r = "" then "member" else r
         | none => "member")) ∧
    postMemberships st auth2 b = postMemberships st auth b ∧
    (∀ st2 : DBState, ∀ auth3 : Option Int, ∀ b2 : MembershipCreateBody,
       (postMemberships st2 auth3 b2).1 ≠ Res.err 401 ∧
       (postMemberships st2 auth3 b2).1 ≠ Res.err 403) := by
  obtain ⟨u, hu, huid⟩ := huser
  obtain ⟨g, hg, hgid⟩ := hgroup
  have h1 : st.users.any (fun x => x.id == b.userId) = true :=
    List.any_eq_true.mpr ⟨u, hu, by simp [huid]⟩
  have h2 : st.groups.any (fun x => x.id == b.groupId) = true :=
    List.any_eq_true.mpr ⟨g, hg, by simp [hgid]⟩
  have h3 : st.memberships.any (fun m => m.userId == b.userId && m.groupId == b.groupId) = false := by
    rw [List.any_eq_false]
    intro m hm
    simp only [Bool.and_eq_true, beq_iff_eq, not_and]
    intro ha hb
    exact hfree ⟨m, hm, ha, hb⟩
  refine ⟨⟨{ id := st.nextMembershipId, userId := b.userId, groupId := b.groupId,
             role := match b.role with
               | some r => if r == "" then "member" else r
               | none => "member" },
      by simp [postMemberships, addMembership, h1, h2, h3],
      by simp [postMemberships, addMembership, h1, h2, h3],
      rfl, rfl, ?_⟩, rfl, ?_⟩
  · cases hb : b.role with
    | none => rfl
    | some r =>
      by_cases hr : r = "" <;> simp [hr]
  · intro st2 auth3 b2
    constructor <;> (unfold postMemberships addMembership; split <;> simp)

/-- C5 witness for the amended claim: user 2 exists, group 2 exists and has
no membership of user 2, so the unauthenticated call creates the row. -/
theorem membershipAdd_no_auth_witness :
    (∃ u ∈ sampleState.users, u.id = (2 : Int)) ∧
    (∃ g ∈ sampleState.groups, g.id = (2 : Int)) ∧
    (¬ ∃ m ∈ sampleState.memberships, m.userId = (2 : Int) ∧ m.groupId = (2 : Int)) ∧
    ((∃ newM, (postMemberships sampleState none ⟨2, 2, none⟩).1 = Res.ok 201 newM ∧
       newM ∈ (postMemberships sampleState none ⟨2, 2, none⟩).2.memberships ∧
       newM.userId = (2 : Int) ∧ newM.groupId = (2 : Int) ∧
       newM.role = "member") ∧
     postMemberships sampleState (some 1) ⟨2, 2, none⟩ = postMemberships sampleState none ⟨2, 2, none⟩ ∧
     (∀ st2 : DBState, ∀ auth3 : Option Int, ∀ b2 : MembershipCreateBody,
       (postMemberships st2 auth3 b2).1 ≠ Res.err 401 ∧
       (postMemberships st2 auth3 b2).1 ≠ Res.err 403)) :=
  ⟨by decide, by decide, by decide,
    membershipAdd_no_auth sampleState none (some 1) ⟨2, 2, none⟩ (by decide) (by decide) (by decide)⟩

/-- C7 counterexample: registering with password `hunter2` stores the
password verbatim in the `User` row — the credential column afterwards holds
the plain text, not a hash — refuting "stores the supplied password as a
credential hash rather than in recoverable form"; the response half of the
claim (user returned without the password field) does hold. -/
theorem userCreate_counterexample :
    ((createUser sampleState ⟨"new@x.c", "hunter2", none, none⟩).2.users.map User.password =
      ["pw1", "pw2", "pw5", "hunter2"]) ∧
    (createUser sampleState ⟨"new@x.c", "hunter2", none, none⟩).1 =
      Res.ok 201 ⟨6, "new@x.c", none, none, none⟩ := by
  constructor <;> rfl

/-- C7 amended: `POST /users` (active server) stores the supplied password
verbatim (plain text) in the created row and answers 201 with the row minus
the password column (`UserPublic`). -/
theorem userCreate_amended (st : DBState) (b : UserCreateBody)
    (hfresh : ¬ ∃ u ∈ st.users, u.email = jsToLower b.email) :
    ∃ u : User,
      (createUser st b).2.users = st.users ++ [u] ∧
      u.password = b.password ∧
      u.email = jsToLower b.email ∧
      (createUser st b).1 =
        Res.ok 201 { id := u.id, email := u.email, name := u.name,
                     phone := u.phone, pushToken := u.pushToken } := by
  have h0 : st.users.any (fun x => x.email == jsToLower b.email) = false := by
    rw [List.any_eq_false]
    intro x hx
    simp only [beq_iff_eq]
    exact fun he => hfresh ⟨x, hx, he⟩
  exact ⟨{ id := st.nextUserId, email := jsToLower b.email, password := b.password,
           name := b.name, phone := b.phone, pushToken := none },
    by simp [createUser, h0], rfl, rfl, by simp [createUser, h0]⟩

/-- C7 witness for the amended claim at a fresh email. -/
theorem userCreate_amended_witness :
    (¬ ∃ u ∈ sampleState.users, u.email = jsToLower "f@x.c") ∧
    ∃ u : User,
      (createUser sampleState ⟨"f@x.c", "pw6", none, none⟩).2.users = sampleState.users ++ [u] ∧
      u.password = "pw6" ∧
      u.email = jsToLower "f@x.c" ∧
      (createUser sampleState ⟨"f@x.c", "pw6", none, none⟩).1 =
        Res.ok 201 { id := u.id, email := u.email, name := u.name,
                     phone := u.phone, pushToken := u.pushToken } :=
  ⟨by decide, userCreate_amended sampleState ⟨"f@x.c", "pw6", none, none⟩ (by decide)⟩

/-- C10: an admin's `PUT /cycles/:cycleId` whose body omits
`recipientUserId` sets the cycle's `recipientUserId` to `NULL`
(`recipientUserId ? parseInt(...) : null` is never `undefined`), so a
status-only update clears a previously assigned recipient instead of leaving
it unchanged. -/
theorem cycleUpdate_recipient_cleared (st : DBState) (caller cid : Int) (b : CycleUpdateBody)
    (c : Cycle)
    (hc : st.cycles.find? (fun x => x.id == cid) = some c)
    (hadm : isAdmin st caller c.groupId = true)
    (hnone : b.recipientUserId = none) :
    ∃ x, (updateCycle st caller cid b).1 = Res.ok 200 x ∧
      x.recipientUserId = none ∧ x.id = c.id ∧ x.status = (match b.status with
        | some s => if s = "" then c.status else s
        | none => c.status) ∧
      x ∈ (updateCycle st caller cid b).2.cycles := by
  obtain ⟨m, hm, hrole⟩ := isAdmin_eq_true st caller c.groupId hadm
  have hinv : invalidRecipient st c b = false := by simp [invalidRecipient, hnone]
  have hmem : c ∈ st.cycles := List.mem_of_find?_eq_some hc
  have hcid : (c.id == cid) = true := by have := List.find?_some hc; exact this
  refine ⟨applyCycleUpdate c b, ?_, ?_, rfl, ?_, ?_⟩
  · simp [updateCycle, hc, hm, hrole, hinv]
  · simp [applyCycleUpdate, hnone]
  · unfold applyCycleUpdate
    cases hb : b.status with
    | none => rfl
    | some s => by_cases hs : s = "" <;> simp [hs]
  · have h := List.mem_map_of_mem
      (fun x => if x.id == cid then applyCycleUpdate x b else x) hmem
    simp only [hcid, if_true] at h
    simpa [updateCycle, hc, hm, hrole, hinv] using h

/-- C10 witness: cycle 1 of the sample store has recipient user 5; the
status-only update by admin 1 succeeds and clears the recipient. -/
theorem cycleUpdate_recipient_cleared_witness :
    (sampleState.cycles.find? (fun x => x.id == 1) =
      some ⟨1, 1, 1, none, none, some 5, "completed"⟩) ∧
    (isAdmin sampleState 1 1 = true) ∧
    ∃ x, (updateCycle sampleState 1 1 ⟨none, some "active"⟩).1 = Res.ok 200 x ∧
      x.recipientUserId = none ∧ x.id = (1 : Int) ∧ x.status = "active" ∧
      x ∈ (updateCycle sampleState 1 1 ⟨none, some "active"⟩).2.cycles :=
  ⟨by decide, by decide,
    cycleUpdate_recipient_cleared sampleState 1 1 ⟨none, some "active"⟩
      ⟨1, 1, 1, none, none, some 5, "completed"⟩ (by decide) (by decide) rfl⟩

/-- C2: `PUT /groups/:groupId` succeeds precisely when the caller holds an
admin membership of the group; every other caller (no membership, or a
non-admin role) gets 403 with the whole store — in particular the Group
row — unchanged.  Hypotheses: the group exists (the claim quantifies over
Groups) and the store satisfies the membership unique key. -/
theorem groupUpdate_admin_iff (st : DBState) (caller gid : Int) (b : GroupUpdateBody)
    (hu : MembKeyUnique st)
    (hg : ∃ g ∈ st.groups, g.id = gid) :
    ((∃ x, (updateGroup st caller gid b).1 = Res.ok 200 x) ↔
      ∃ m ∈ st.memberships, m.userId = caller ∧ m.groupId = gid ∧ m.role = "admin") ∧
    ((¬ ∃ m ∈ st.memberships, m.userId = caller ∧ m.groupId = gid ∧ m.role = "admin") →
      (updateGroup st caller gid b).1 = Res.err 403 ∧
      (updateGroup st caller gid b).2 = st) := by
  obtain ⟨g0, hg0, hg0id⟩ := hg
  have hgs : (st.groups.find? (fun x => x.id == gid)).isSome := by
    rw [List.find?_isSome]
    exact ⟨g0, hg0, by simp [hg0id]⟩
  obtain ⟨gg, hgg⟩ := Option.isSome_iff_exists.mp hgs
  have hiff := isAdmin_iff st hu caller gid
  cases hadm : isAdmin st caller gid with
  | true =>
    obtain ⟨m, hm, hrole⟩ := isAdmin_eq_true st caller gid hadm
    rw [hadm] at hiff
    refine ⟨⟨fun _ => hiff.mp rfl, fun _ => ⟨applyGroupUpdate gg b, ?_⟩⟩,
      fun hno => absurd (hiff.mp rfl) hno⟩
    simp [updateGroup, hm, hrole, hgg]
  | false =>
    have hfail : updateGroup st caller gid b = (Res.err 403, st) := by
      unfold isAdmin at hadm
      cases hfm : findMembership st caller gid with
      | none => simp [updateGroup, hfm]
      | some m =>
        rw [hfm] at hadm
        have hadm2 : (m.role == "admin") = false := hadm
        have hr : ¬ m.role = "admin" := by simpa using hadm2
        simp [updateGroup, hfm, hr]
    rw [hadm] at hiff
    refine ⟨⟨fun ⟨x, hx⟩ => ?_, fun hex => ?_⟩, fun _ => by rw [hfail]; exact ⟨rfl, rfl⟩⟩
    · rw [hfail] at hx; simp at hx
    · cases hiff.mpr hex

/-- C2 witness: admin caller 1 succeeds on group 1; member caller 2 gets 403
with the store unchanged. -/
theorem groupUpdate_admin_iff_witness :
    MembKeyUnique sampleState ∧
    (∃ g ∈ sampleState.groups, g.id = (1 : Int)) ∧
    (((∃ x, (updateGroup sampleState 2 1 ⟨some "n", none, none, none, none⟩).1 = Res.ok 200 x) ↔
      ∃ m ∈ sampleState.memberships, m.userId = (2 : Int) ∧ m.groupId = (1 : Int) ∧ m.role = "admin") ∧
     ((¬ ∃ m ∈ sampleState.memberships, m.userId = (2 : Int) ∧ m.groupId = (1 : Int) ∧ m.role = "admin") →
      (updateGroup sampleState 2 1 ⟨some "n", none, none, none, none⟩).1 = Res.err 403 ∧
      (updateGroup sampleState 2 1 ⟨some "n", none, none, none, none⟩).2 = sampleState)) :=
  ⟨by decide, by decide,
    groupUpdate_admin_iff sampleState 2 1 ⟨some "n", none, none, none, none⟩ (by decide) (by decide)⟩

/-- C8 counterexample: group 1 of the sample store has `contribution = 50`
and `maxMembers = 10`; an admin update supplying only `name` succeeds but
resets both omitted columns to `NULL` (`contribution ? parseFloat(...) : null`
is evaluated even when the field is absent), refuting "fields not provided
in the request retain their previous values". -/
theorem groupUpdate_counterexample :
    sampleState.groups.map Group.contribution = [some 50, none] ∧
    sampleState.groups.map Group.maxMembers = [some 10, none] ∧
    (updateGroup sampleState 1 1 ⟨some "renamed", none, none, none, none⟩).1 =
      Res.ok 200 ⟨1, "renamed", none, none, some "monthly", none⟩ ∧
    (updateGroup sampleState 1 1 ⟨some "renamed", none, none, none, none⟩).2.groups.map
      Group.contribution = [none, none] ∧
    (updateGroup sampleState 1 1 ⟨some "renamed", none, none, none, none⟩).2.groups.map
      Group.maxMembers = [none, none] :=
  ⟨rfl, rfl, rfl, rfl, rfl⟩

/-- C8 amended: an admin group update overwrites the row as follows, with no
validation (a negative contribution is stored as supplied): provided `name`,
`description`, `frequency` are written and omitted ones retained; but
`contribution` and `maxMembers` are always overwritten — with the supplied
value when it is non-zero and with `NULL` when the field is omitted or `0`.
Rows of other groups are untouched. -/
theorem groupUpdate_amended (st : DBState) (caller gid : Int) (b : GroupUpdateBody) (g : Group)
    (hg : st.groups.find? (fun x => x.id == gid) = some g)
    (hadm : isAdmin st caller gid = true) :
    (updateGroup st caller gid b).1 = Res.ok 200 (applyGroupUpdate g b) ∧
    (applyGroupUpdate g b).id = g.id ∧
    (applyGroupUpdate g b).name = (match b.name with | some s => s | none => g.name) ∧
    (applyGroupUpdate g b).description =
      (match b.description with | some s => some s | none => g.description) ∧
    (applyGroupUpdate g b).frequency =
      (match b.frequency with | some s => some s | none => g.frequency) ∧
    (applyGroupUpdate g b).contribution =
      (match b.contribution with | some v => if v = 0 then none else some v | none => none) ∧
    (applyGroupUpdate g b).maxMembers =
      (match b.maxMembers with | some v => if v = 0 then none else some v | none => none) ∧
    applyGroupUpdate g b ∈ (updateGroup st caller gid b).2.groups ∧
    (∀ x ∈ st.groups, x.id ≠ gid → x ∈ (updateGroup st caller gid b).2.groups) := by
  obtain ⟨m, hm, hrole⟩ := isAdmin_eq_true st caller gid hadm
  have hgid : (g.id == gid) = true := by have := List.find?_some hg; exact this
  have hgmem : g ∈ st.groups := List.mem_of_find?_eq_some hg
  refine ⟨by simp [updateGroup, hm, hrole, hg], rfl, rfl, rfl, rfl, ?_, ?_, ?_, ?_⟩
  · unfold applyGroupUpdate
    cases b.contribution with
    | none => rfl
    | some v => by_cases hv : v = 0 <;> simp [hv]
  · unfold applyGroupUpdate
    cases b.maxMembers with
    | none => rfl
    | some v => by_cases hv : v = 0 <;> simp [hv]
  · have h := List.mem_map_of_mem (fun x => if x.id == gid then applyGroupUpdate x b else x) hgmem
    simp only [hgid, if_true] at h
    simpa [updateGroup, hm, hrole, hg] using h
  · intro x hx hxne
    have hxe : (x.id == gid) = false := beq_eq_false_iff_ne.mpr hxne
    have h := List.mem_map_of_mem (fun y => if y.id == gid then applyGroupUpdate y b else y) hx
    simp only [hxe, if_false] at h
    simpa [updateGroup, hm, hrole, hg] using h

/-- C8 witness for the amended claim: the update supplies `description` and a
negative `contribution`, which is stored unvalidated; the omitted
`maxMembers` is reset to `NULL` and the omitted `name` is retained. -/
theorem groupUpdate_amended_witness :
    (sampleState.groups.find? (fun x => x.id == 1) =
      some ⟨1, "g1", none, some 50, some "monthly", some 10⟩) ∧
    (isAdmin sampleState 1 1 = true) ∧
    ((updateGroup sampleState 1 1 ⟨none, some "d", some (-5), none, none⟩).1 =
      Res.ok 200 (applyGroupUpdate ⟨1, "g1", none, some 50, some "monthly", some 10⟩
        ⟨none, some "d", some (-5), none, none⟩) ∧
     (applyGroupUpdate ⟨1, "g1", none, some 50, some "monthly", some 10⟩
        ⟨none, some "d", some (-5), none, none⟩).id = (1 : Int) ∧
     (applyGroupUpdate ⟨1, "g1", none, some 50, some "monthly", some 10⟩
        ⟨none, some "d", some (-5), none, none⟩).name = "g1" ∧
     (applyGroupUpdate ⟨1, "g1", none, some 50, some "monthly", some 10⟩
        ⟨none, some "d", some (-5), none, none⟩).description = some "d" ∧
     (applyGroupUpdate ⟨1, "g1", none, some 50, some "monthly", some 10⟩
        ⟨none, some "d", some (-5), none, none⟩).frequency = some "monthly" ∧
     (applyGroupUpdate ⟨1, "g1", none, some 50, some "monthly", some 10⟩
        ⟨none, some "d", some (-5), none, none⟩).contribution = some (-5) ∧
     (applyGroupUpdate ⟨1, "g1", none, some 50, some "monthly", some 10⟩
        ⟨none, some "d", some (-5), none, none⟩).maxMembers = none ∧
     applyGroupUpdate ⟨1, "g1", none, some 50, some "monthly", some 10⟩
        ⟨none, some "d", some (-5), none, none⟩ ∈
       (updateGroup sampleState 1 1 ⟨none, some "d", some (-5), none, none⟩).2.groups ∧
     (∀ x ∈ sampleState.groups, x.id ≠ (1 : Int) →
       x ∈ (updateGroup sampleState 1 1 ⟨none, some "d", some (-5), none, none⟩).2.groups)) :=
  ⟨by decide, by decide,
    groupUpdate_amended sampleState 1 1 ⟨none, some "d", some (-5), none, none⟩
      ⟨1, "g1", none, some 50, some "monthly", some 10⟩ (by decide) (by decide)⟩

/-- Characterization of a successful cycle creation. -/
theorem createCycle_success (st : DBState) (caller gid : Int) (b : CycleCreateBody)
    (m : Membership)
    (hm : findMembership st caller gid = some m) (hrole : m.role = "admin") :
    createCycle st caller gid b =
      (Res.ok 201 (mkNewCycle st gid b),
       { st with
           cycles := st.cycles ++ [mkNewCycle st gid b]
           payments := st.payments ++ fanOut st.nextPaymentId (mkNewCycle st gid b).id
             (fanOutAmount (st.groups.find? (fun g => g.id == gid)))
             (st.memberships.filter (fun mm => mm.groupId == gid))
           nextCycleId := st.nextCycleId + 1
           nextPaymentId := st.nextPaymentId +
             (st.memberships.filter (fun mm => mm.groupId == gid)).length }) := by
  simp [createCycle, hm, hrole]

/-- The spec-side null-coalescing `group.contribution ?? 100` of claim C1:
the contribution whenever it is non-null, 100 only when it is null. -/
def specAmount (contribution : Option Rat) : Rat :=
  match contribution with
  | some v => v
  | none => 100

/-- C1 counterexample: in a store whose group has `contribution = 0` (a
non-null value of the nullable Float column) and one membership, cycle
creation by the admin stores a payment of amount 100, while the claim's
`group.contribution ?? 100` demands 0 — the code computes
`theGroup?.contribution || 100`, which also replaces the falsy 0. -/
theorem cycleCreate_counterexample :
    zeroContribState.groups.map Group.contribution = [some 0] ∧
    (zeroContribState.memberships.filter (fun m => m.groupId == 1)).length = 1 ∧
    ((createCycle zeroContribState 1 1 ⟨1, none, none, none, none⟩).2.payments.map
      Payment.amount = [100]) ∧
    specAmount (some 0) = 0 ∧
    (100 : Rat) ≠ 0 :=
  ⟨rfl, rfl, rfl, rfl, by norm_num⟩

/-- C1 amended: an admin's cycle creation on a group with N current
memberships creates exactly N payment rows, one per membership (same user
ids, in order), each with `paid = false`, `paidAt = NULL`, the new cycle's
id, and amount `theGroup?.contribution || 100` — the group's contribution
when non-null and non-zero, 100 otherwise (JS `||`, not `??`); zero
memberships yield zero payments. -/
theorem cycleCreate_fanout (st : DBState) (caller gid : Int) (b : CycleCreateBody)
    (hadm : isAdmin st caller gid = true) :
    ∃ c, (createCycle st caller gid b).1 = Res.ok 201 c ∧
      c.id = st.nextCycleId ∧
      (createCycle st caller gid b).2.payments.length =
        st.payments.length + (st.memberships.filter (fun m => m.groupId == gid)).length ∧
      ((createCycle st caller gid b).2.payments.drop st.payments.length).map Payment.userId =
        (st.memberships.filter (fun m => m.groupId == gid)).map Membership.userId ∧
      (∀ p ∈ (createCycle st caller gid b).2.payments.drop st.payments.length,
        p.paid = false ∧ p.paidAt = none ∧ p.cycleId = c.id ∧
        p.amount = fanOutAmount (st.groups.find? (fun g => g.id == gid))) ∧
      (st.memberships.filter (fun m => m.groupId == gid) = [] →
        (createCycle st caller gid b).2.payments = st.payments) := by
  obtain ⟨m, hm, hrole⟩ := isAdmin_eq_true st caller gid hadm
  have hs := createCycle_success st caller gid b m hm hrole
  refine ⟨mkNewCycle st gid b, by rw [hs], rfl, ?_, ?_, ?_, ?_⟩
  · rw [hs]
    simp [fanOut_length]
  · rw [hs]
    show ((st.payments ++ _).drop st.payments.length).map Payment.userId = _
    rw [List.drop_left]
    exact fanOut_map_userId _ _ _ _
  · rw [hs]
    intro p hp
    rw [show ((Res.ok 201 (mkNewCycle st gid b), _) : Res Cycle × DBState).2.payments.drop
        st.payments.length = _ from rfl] at hp
    rw [List.drop_left] at hp
    obtain ⟨h1, h2, h3, h4⟩ := fanOut_mem _ _ _ _ p hp
    exact ⟨h1, h2, h4, h3⟩
  · intro hnil
    rw [hs]
    show st.payments ++ _ = st.payments
    rw [hnil]
    simp [fanOut]

/-- C1 witness for the amended claim: group 1 of the sample store has
contribution 50 and three memberships (users 1, 2, 5); the admin's call
creates exactly three unpaid payments of amount 50 for the new cycle. -/
theorem cycleCreate_fanout_witness :
    (isAdmin sampleState 1 1 = true) ∧
    ∃ c, (createCycle sampleState 1 1 ⟨2, none, none, none, none⟩).1 = Res.ok 201 c ∧
      c.id = sampleState.nextCycleId ∧
      (createCycle sampleState 1 1 ⟨2, none, none, none, none⟩).2.payments.length =
        sampleState.payments.length +
          (sampleState.memberships.filter (fun m => m.groupId == 1)).length ∧
      ((createCycle sampleState 1 1 ⟨2, none, none, none, none⟩).2.payments.drop
          sampleState.payments.length).map Payment.userId =
        (sampleState.memberships.filter (fun m => m.groupId == 1)).map Membership.userId ∧
      (∀ p ∈ (createCycle sampleState 1 1 ⟨2, none, none, none, none⟩).2.payments.drop
          sampleState.payments.length,
        p.paid = false ∧ p.paidAt = none ∧ p.cycleId = c.id ∧
        p.amount = fanOutAmount (sampleState.groups.find? (fun g => g.id == 1))) ∧
      (sampleState.memberships.filter (fun m => m.groupId == 1) = [] →
        (createCycle sampleState 1 1 ⟨2, none, none, none, none⟩).2.payments =
          sampleState.payments) :=
  ⟨by decide, cycleCreate_fanout sampleState 1 1 ⟨2, none, none, none, none⟩ (by decide)⟩

/-- C9: cycle creation is not idempotent and enforces no `cycleIndex`
uniqueness: two identical admin calls append two cycle rows with distinct
ids and the same caller-supplied `cycleIndex`, and add 2N payment rows for
the group's N memberships. -/
theorem cycleCreate_not_idempotent (st : DBState) (caller gid : Int) (b : CycleCreateBody)
    (hadm : isAdmin st caller gid = true) :
    ∃ c1 c2,
      (createCycle st caller gid b).1 = Res.ok 201 c1 ∧
      (createCycle (createCycle st caller gid b).2 caller gid b).1 = Res.ok 201 c2 ∧
      c1.id ≠ c2.id ∧
      c1.groupId = gid ∧ c2.groupId = gid ∧
      c1.cycleIndex = b.cycleIndex ∧ c2.cycleIndex = b.cycleIndex ∧
      (createCycle (createCycle st caller gid b).2 caller gid b).2.cycles =
        st.cycles ++ [c1, c2] ∧
      (createCycle (createCycle st caller gid b).2 caller gid b).2.payments.length =
        st.payments.length +
          2 * (st.memberships.filter (fun m => m.groupId == gid)).length := by
  obtain ⟨m, hm, hrole⟩ := isAdmin_eq_true st caller gid hadm
  have h1 := createCycle_success st caller gid b m hm hrole
  set st1 := (createCycle st caller gid b).2 with hst1
  have hmemb1 : st1.memberships = st.memberships := by rw [hst1, h1]
  have hm1 : findMembership st1 caller gid = some m := by
    unfold findMembership
    rw [hmemb1]
    exact hm
  have h2 := createCycle_success st1 caller gid b m hm1 hrole
  refine ⟨mkNewCycle st gid b, mkNewCycle st1 gid b, by rw [h1], by rw [h2],
    ?_, rfl, rfl, rfl, rfl, ?_, ?_⟩
  · have e3 : st1.nextCycleId = st.nextCycleId + 1 := by rw [hst1, h1]
    show (mkNewCycle st gid b).id ≠ (mkNewCycle st1 gid b).id
    show st.nextCycleId ≠ st1.nextCycleId
    rw [e3]
    omega
  · have e4 : st1.cycles = st.cycles ++ [mkNewCycle st gid b] := by rw [hst1, h1]
    rw [h2]
    show st1.cycles ++ [mkNewCycle st1 gid b] = _
    rw [e4, List.append_assoc]
    rfl
  · have e5 : st1.payments.length =
        st.payments.length + (st.memberships.filter (fun mm => mm.groupId == gid)).length := by
      rw [hst1, h1]
      show (st.payments ++ _).length = _
      rw [List.length_append, fanOut_length]
    rw [h2]
    show (st1.payments ++ fanOut st1.nextPaymentId _ _
      (st1.memberships.filter (fun mm => mm.groupId == gid))).length = _
    rw [List.length_append, fanOut_length, hmemb1, e5]
    ring

/-- C9 witness: two identical cycle creations by admin 1 on group 1 of the
sample store (3 memberships) yield two distinct cycles and 6 new payments. -/
theorem cycleCreate_not_idempotent_witness :
    (isAdmin sampleState 1 1 = true) ∧
    ∃ c1 c2,
      (createCycle sampleState 1 1 ⟨1, none, none, none, none⟩).1 = Res.ok 201 c1 ∧
      (createCycle (createCycle sampleState 1 1 ⟨1, none, none, none, none⟩).2 1 1
        ⟨1, none, none, none, none⟩).1 = Res.ok 201 c2 ∧
      c1.id ≠ c2.id ∧
      c1.groupId = (1 : Int) ∧ c2.groupId = (1 : Int) ∧
      c1.cycleIndex = (1 : Int) ∧ c2.cycleIndex = (1 : Int) ∧
      (createCycle (createCycle sampleState 1 1 ⟨1, none, none, none, none⟩).2 1 1
        ⟨1, none, none, none, none⟩).2.cycles = sampleState.cycles ++ [c1, c2] ∧
      (createCycle (createCycle sampleState 1 1 ⟨1, none, none, none, none⟩).2 1 1
        ⟨1, none, none, none, none⟩).2.payments.length =
        sampleState.payments.length +
          2 * (sampleState.memberships.filter (fun m => m.groupId == 1)).length :=
  ⟨by decide, cycleCreate_not_idempotent sampleState 1 1 ⟨1, none, none, none, none⟩ (by decide)⟩

/-- C4 counterexample, two parts on the sample store (cycle 1 of group 1 has
recipient user 5 and status `completed`, caller 1 is admin).  (i) Supplying
`recipientUserId = 0` — a value that resolves to no membership of the group —
is not rejected with 400: the JS truthiness test `if (recipientUserId)` skips
the validation, the call succeeds and the cycle's recipient is cleared
instead of left unchanged.  (ii) A supplied status `""` is not written
verbatim: `status || undefined` drops it and the stored status stays
`completed`. -/
theorem cycleUpdate_counterexample :
    (¬ ∃ m ∈ sampleState.memberships, m.userId = (0 : Int) ∧ m.groupId = (1 : Int)) ∧
    sampleState.cycles.map Cycle.recipientUserId = [some 5] ∧
    (updateCycle sampleState 1 1 ⟨some 0, none⟩).1 ≠ Res.err 400 ∧
    (updateCycle sampleState 1 1 ⟨some 0, none⟩).2.cycles.map Cycle.recipientUserId = [none] ∧
    sampleState.cycles.map Cycle.status = ["completed"] ∧
    (updateCycle sampleState 1 1 ⟨some 5, some ""⟩).2.cycles.map Cycle.status = ["completed"] :=
  ⟨by decide, rfl, by decide, rfl, rfl, rfl⟩

/-- C4 amended: `PUT /cycles/:cycleId` succeeds only for an admin of the
cycle's group; a supplied NON-ZERO `recipientUserId` that resolves to no
membership of the group is rejected with 400 and the store is unchanged
(supplying the falsy 0 bypasses the check and clears the recipient — see the
counterexample); and a supplied NON-EMPTY status is written verbatim with no
transition validation (in particular `completed → active`), while an empty
string is ignored. -/
theorem cycleUpdate_amended (st : DBState) (caller cid : Int) (b : CycleUpdateBody) (c : Cycle)
    (hc : st.cycles.find? (fun x => x.id == cid) = some c) :
    (∀ x, (updateCycle st caller cid b).1 = Res.ok 200 x → isAdmin st caller c.groupId = true) ∧
    (∀ r, b.recipientUserId = some r → r ≠ 0 → findMembership st r c.groupId = none →
      isAdmin st caller c.groupId = true →
      (updateCycle st caller cid b).1 = Res.err 400 ∧ (updateCycle st caller cid b).2 = st) ∧
    (∀ s, b.status = some s → s ≠ "" → isAdmin st caller c.groupId = true →
      invalidRecipient st c b = false →
      ∃ x, (updateCycle st caller cid b).1 = Res.ok 200 x ∧ x.status = s ∧ x.id = c.id ∧
        x ∈ (updateCycle st caller cid b).2.cycles) := by
  have hcid : (c.id == cid) = true := by have := List.find?_some hc; exact this
  have hmem : c ∈ st.cycles := List.mem_of_find?_eq_some hc
  refine ⟨?_, ?_, ?_⟩
  · intro x hx
    cases hfm : findMembership st caller c.groupId with
    | none => simp [updateCycle, hc, hfm] at hx
    | some m =>
      by_cases hr : m.role = "admin"
      · unfold isAdmin
        rw [hfm]
        simp [hr]
      · simp [updateCycle, hc, hfm, hr] at hx
  · intro r hr hrne hnone hadm
    obtain ⟨m, hm, hrole⟩ := isAdmin_eq_true st caller c.groupId hadm
    have h0 : (r == 0) = false := beq_eq_false_iff_ne.mpr hrne
    have hinv : invalidRecipient st c b = true := by
      simp [invalidRecipient, hr, h0, hnone]
    exact ⟨by simp [updateCycle, hc, hm, hrole, hinv],
      by simp [updateCycle, hc, hm, hrole, hinv]⟩
  · intro s hs hsne hadm hinv
    obtain ⟨m, hm, hrole⟩ := isAdmin_eq_true st caller c.groupId hadm
    have h1 : (s == "") = false := beq_eq_false_iff_ne.mpr hsne
    refine ⟨applyCycleUpdate c b, by simp [updateCycle, hc, hm, hrole, hinv], ?_, rfl, ?_⟩
    · simp [applyCycleUpdate, hs, h1]
    · have h := List.mem_map_of_mem
        (fun x => if x.id == cid then applyCycleUpdate x b else x) hmem
      simp only [hcid, if_true] at h
      simpa [updateCycle, hc, hm, hrole, hinv] using h

/-- C4 witness for the amended claim, exercising the `completed → active`
transition with a valid recipient (user 2 is a member of group 1). -/
theorem cycleUpdate_amended_witness :
    (sampleState.cycles.find? (fun x => x.id == 1) =
      some ⟨1, 1, 1, none, none, some 5, "completed"⟩) ∧
    ((∀ x, (updateCycle sampleState 1 1 ⟨some 2, some "active"⟩).1 = Res.ok 200 x →
        isAdmin sampleState 1 1 = true) ∧
     (∀ r, (some (2 : Int) : Option Int) = some r → r ≠ 0 →
        findMembership sampleState r 1 = none →
        isAdmin sampleState 1 1 = true →
        (updateCycle sampleState 1 1 ⟨some 2, some "active"⟩).1 = Res.err 400 ∧
        (updateCycle sampleState 1 1 ⟨some 2, some "active"⟩).2 = sampleState) ∧
     (∀ s, (some "active" : Option String) = some s → s ≠ "" →
        isAdmin sampleState 1 1 = true →
        invalidRecipient sampleState ⟨1, 1, 1, none, none, some 5, "completed"⟩
          ⟨some 2, some "active"⟩ = false →
        ∃ x, (updateCycle sampleState 1 1 ⟨some 2, some "active"⟩).1 = Res.ok 200 x ∧
          x.status = s ∧ x.id = (1 : Int) ∧
          x ∈ (updateCycle sampleState 1 1 ⟨some 2, some "active"⟩).2.cycles)) :=
  ⟨by decide,
    cycleUpdate_amended sampleState 1 1 ⟨some 2, some "active"⟩
      ⟨1, 1, 1, none, none, some 5, "completed"⟩ (by decide)⟩

/-- The handler's removal permission, in the spec's language, under the
membership unique key. -/
theorem removalAllowed_iff (st : DBState) (caller : Int) (m : Membership)
    (hu : MembKeyUnique st) :
    removalAllowed st caller m = true ↔
      (m.userId = caller ∨
        ∃ a ∈ st.memberships, a.userId = caller ∧ a.groupId = m.groupId ∧ a.role = "admin") := by
  unfold removalAllowed
  constructor
  · intro h
    by_cases he : m.userId = caller
    · exact Or.inl he
    · right
      have hbe : (m.userId == caller) = false := beq_eq_false_iff_ne.mpr he
      rw [hbe] at h
      simp only [Bool.false_eq_true, if_false] at h
      cases hfm : findMembership st caller m.groupId with
      | none => rw [hfm] at h; cases h
      | some um =>
        rw [hfm] at h
        obtain ⟨hmem, hu', hg'⟩ := findMembership_some st caller m.groupId um hfm
        exact ⟨um, hmem, hu', hg', beq_iff_eq.mp h⟩
  · intro hperm
    rcases hperm with he | ⟨a, ha, hau, hag, har⟩
    · simp [beq_iff_eq.mpr he]
    · by_cases he : m.userId = caller
      · simp [beq_iff_eq.mpr he]
      · have hbe : (m.userId == caller) = false := beq_eq_false_iff_ne.mpr he
        have hfm : findMembership st caller m.groupId = some a := by
          have h := findMembership_of_mem st hu a ha
          rw [hau, hag] at h
          exact h
        simp [hbe, hfm, har]

/-- Characterization of a successful membership removal. -/
theorem removeMembership_success (st : DBState) (caller mid : Int) (m : Membership)
    (hm : st.memberships.find? (fun x => x.id == mid) = some m)
    (hal : removalAllowed st caller m = true) :
    removeMembership st caller mid =
      (Res.ok 200 "Member removed successfully",
       { st with
           payments := st.payments.filter (fun p => !(paymentOfUserInGroup st m p))
           memberships := st.memberships.filter (fun mm => mm.id != mid) }) := by
  simp [removeMembership, hm, hal]

/-- C3: a membership removal (on an existing membership row) is permitted
precisely for the membership's own user or an admin of the group; on success
every payment of that user lying in a cycle of that group is gone from the
store (it was deleted before the membership row), the membership row is
gone, and `GET /cycles/:cycleId/payments` on any cycle of that group never
returns a payment of that user; any other caller gets 403 with the store
unchanged. -/
theorem membershipRemove_spec (st : DBState) (caller mid : Int) (m : Membership)
    (hm : st.memberships.find? (fun x => x.id == mid) = some m)
    (hcyc : CycleIdsUnique st)
    (hu : MembKeyUnique st) :
    ((∃ s, (removeMembership st caller mid).1 = Res.ok 200 s) ↔
      (m.userId = caller ∨
        ∃ a ∈ st.memberships, a.userId = caller ∧ a.groupId = m.groupId ∧ a.role = "admin")) ∧
    ((m.userId = caller ∨
        ∃ a ∈ st.memberships, a.userId = caller ∧ a.groupId = m.groupId ∧ a.role = "admin") →
      ((¬ ∃ p ∈ (removeMembership st caller mid).2.payments,
          p.userId = m.userId ∧ ∃ c ∈ st.cycles, c.id = p.cycleId ∧ c.groupId = m.groupId) ∧
       (¬ ∃ mm ∈ (removeMembership st caller mid).2.memberships, mm.id = mid) ∧
       (∀ c ∈ st.cycles, c.groupId = m.groupId → ∀ viewer ps,
          listForCycle (removeMembership st caller mid).2 viewer c.id = Res.ok 200 ps →
          ∀ p ∈ ps, p.userId ≠ m.userId))) ∧
    ((¬ (m.userId = caller ∨
        ∃ a ∈ st.memberships, a.userId = caller ∧ a.groupId = m.groupId ∧ a.role = "admin")) →
      (removeMembership st caller mid).1 = Res.err 403 ∧
      (removeMembership st caller mid).2 = st) := by
  have hiff := removalAllowed_iff st caller m hu
  by_cases hperm : (m.userId = caller ∨
      ∃ a ∈ st.memberships, a.userId = caller ∧ a.groupId = m.groupId ∧ a.role = "admin")
  · have hal : removalAllowed st caller m = true := hiff.mpr hperm
    have hsucc := removeMembership_success st caller mid m hm hal
    have hB1 : ¬ ∃ p ∈ (removeMembership st caller mid).2.payments,
        p.userId = m.userId ∧ ∃ c ∈ st.cycles, c.id = p.cycleId ∧ c.groupId = m.groupId := by
      rintro ⟨p, hp, hpu, c, hcmem, hcid, hcg⟩
      have hp' : p ∈ st.payments.filter (fun q => !(paymentOfUserInGroup st m q)) := by
        rw [hsucc] at hp; exact hp
      rw [List.mem_filter] at hp'
      obtain ⟨hpmem, hpred⟩ := hp'
      have hfind : st.cycles.find? (fun x => x.id == p.cycleId) = some c := by
        have h := cycle_find?_eq st.cycles hcyc c hcmem
        rw [hcid] at h
        exact h
      have hpg : paymentOfUserInGroup st m p = true := by
        simp [paymentOfUserInGroup, hfind, hpu, hcg]
      rw [hpg] at hpred
      cases hpred
    refine ⟨⟨fun _ => hperm, fun _ => ⟨"Member removed successfully", by rw [hsucc]⟩⟩,
      fun _ => ⟨hB1, ?_, ?_⟩, fun h => absurd hperm h⟩
    · rintro ⟨mm, hmm, hmmid⟩
      have hmm' : mm ∈ st.memberships.filter (fun x => x.id != mid) := by
        rw [hsucc] at hmm; exact hmm
      rw [List.mem_filter] at hmm'
      rw [hmmid] at hmm'
      simp at hmm'
    · intro c hcmem hcg viewer ps hls p hp
      intro hpu
      have hcyc2 : (removeMembership st caller mid).2.cycles = st.cycles := by rw [hsucc]
      unfold listForCycle at hls
      rw [hcyc2, cycle_find?_eq st.cycles hcyc c hcmem] at hls
      have hls' : (match findMembership (removeMembership st caller mid).2 viewer c.groupId with
          | none => Res.err 403
          | some _ => Res.ok 200 ((removeMembership st caller mid).2.payments.filter
              (fun p => p.cycleId == c.id))) = Res.ok 200 ps := hls
      cases hfm2 : findMembership (removeMembership st caller mid).2 viewer c.groupId with
      | none => rw [hfm2] at hls'; simp at hls'
      | some w =>
        rw [hfm2] at hls'
        simp only [Res.ok.injEq] at hls'
        obtain ⟨-, hps⟩ := hls'
        rw [← hps, List.mem_filter] at hp
        obtain ⟨hpmem, hpcid⟩ := hp
        exact hB1 ⟨p, hpmem, hpu, c, hcmem, (beq_iff_eq.mp hpcid).symm, hcg⟩
  · have hal : removalAllowed st caller m = false := by
      cases h : removalAllowed st caller m
      · rfl
      · exact absurd (hiff.mp h) hperm
    have hfail : removeMembership st caller mid = (Res.err 403, st) := by
      simp [removeMembership, hm, hal]
    refine ⟨⟨fun ⟨s, hs⟩ => ?_, fun h => absurd h hperm⟩,
      fun h => absurd h hperm, fun _ => by rw [hfail]; exact ⟨rfl, rfl⟩⟩
    rw [hfail] at hs
    simp at hs

/-- C3 witness: admin caller 1 removes membership 2 (user 2 in group 1) of
the sample store; user 2's payment in cycle 1 disappears from the store and
from the cycle's payment listing. -/
theorem membershipRemove_spec_witness :
    (sampleState.memberships.find? (fun x => x.id == 2) = some ⟨2, 2, 1, "member"⟩) ∧
    CycleIdsUnique sampleState ∧
    MembKeyUnique sampleState ∧
    (((∃ s, (removeMembership sampleState 1 2).1 = Res.ok 200 s) ↔
      ((2 : Int) = 1 ∨
        ∃ a ∈ sampleState.memberships, a.userId = (1 : Int) ∧ a.groupId = (1 : Int) ∧
          a.role = "admin")) ∧
     (((2 : Int) = 1 ∨
        ∃ a ∈ sampleState.memberships, a.userId = (1 : Int) ∧ a.groupId = (1 : Int) ∧
          a.role = "admin") →
      ((¬ ∃ p ∈ (removeMembership sampleState 1 2).2.payments,
          p.userId = (2 : Int) ∧ ∃ c ∈ sampleState.cycles, c.id = p.cycleId ∧
            c.groupId = (1 : Int)) ∧
       (¬ ∃ mm ∈ (removeMembership sampleState 1 2).2.memberships, mm.id = (2 : Int)) ∧
       (∀ c ∈ sampleState.cycles, c.groupId = (1 : Int) → ∀ viewer ps,
          listForCycle (removeMembership sampleState 1 2).2 viewer c.id = Res.ok 200 ps →
          ∀ p ∈ ps, p.userId ≠ (2 : Int)))) ∧
     ((¬ ((2 : Int) = 1 ∨
        ∃ a ∈ sampleState.memberships, a.userId = (1 : Int) ∧ a.groupId = (1 : Int) ∧
          a.role = "admin")) →
      (removeMembership sampleState 1 2).1 = Res.err 403 ∧
      (removeMembership sampleState 1 2).2 = sampleState)) :=
  ⟨by decide, by decide, by decide,
    membershipRemove_spec sampleState 1 2 ⟨2, 2, 1, "member"⟩ (by decide) (by decide) (by decide)⟩

end Tontine
